import Mathlib

/-!
Verification of the `rover` grading core against its specification.

The development shallowly embeds the parts of the source relevant to the
claims:

* `src/util/executor.ts` — the sandboxed process executor (`execute`),
  modelled as a deterministic fold over the ordered trace of child-process
  events (stdout/stderr data chunks, the spawn-level timeout firing, exit,
  spawn error) exactly as Node delivers them to the registered handlers.
* `src/driver/runnable.ts` — the `Runnable.run` completion machinery
  (`done`, `multiple`, `resetTimeout`, `timeout`, `reset`), modelled as a
  state record with step functions for the two events an attempt can
  observe: a completion call and the deadline timer firing.
* the Mocha instance lifecycle state machine and `Test.reset`, and the
  declaration-time `forbidOnly` guard of `src/driver/interfaces/common.ts`.

Machine integers are modelled as `Int`/`Nat`; byte buffers as `List Nat`
(one entry per byte); error objects as structures carrying the same `code`
strings the source assigns.
-/

namespace Rover

/-! ## Sandbox executor (`src/util/executor.ts`) -/

/-- Options for `execute`, after the merge `{ ...defaultOptions, ...customOptions }`
(executor.ts lines 13-20, 27).  Limits are byte capacities of the two
`Buffer.alloc` buffers; `timeout` is the value forwarded to `childProcess.spawn`. -/
structure ExecOptions where
  standardOutputLimit : Nat := 64 * 1024
  standardErrorLimit : Nat := 64 * 1024
  standardInput : String := ""
  timeout : Option Nat := none
  deriving Repr, DecidableEq

/-- The result object built in the `exit` handler (executor.ts lines 73-90).
`standardOutput`/`standardError` are the captured byte prefixes
(`buffer.toString("utf8", 0, offset)`); `reason` is the mutable string that
starts as `"success"`; `signal` is the exit signal Node reports. -/
structure Execution where
  exitCode : Option Int
  standardOutput : List Nat
  standardError : List Nat
  reason : String
  signal : Option String
  deriving Repr, DecidableEq

/-- Mutable state of one `execute` invocation: the two buffer contents
(each at most its limit), the shared `reason` variable, and the list of
signals delivered to the child via `spawnedProcess.kill` or the
spawn-option timeout mechanism. -/
structure ExecState where
  stdoutBuf : List Nat
  stderrBuf : List Nat
  reason : String
  kills : List String
  deriving Repr, DecidableEq

/-- State when the promise executor starts (executor.ts lines 29-33). -/
def ExecState.initial : ExecState :=
  { stdoutBuf := [], stderrBuf := [], reason := "success", kills := [] }

/-- One event delivered to the handlers registered by `execute`, in arrival
order: a data chunk on a stream (as raw bytes), the spawn-level timeout
firing (Node kills the child with the configured `killSignal`), process
exit, or a spawn-level `error`. -/
inductive ExecEvent where
  | stdoutData (data : List Nat)
  | stderrData (data : List Nat)
  | timeoutFired
  | exit (exitCode : Option Int) (signal : Option String)
  | errorEvent
  deriving Repr, DecidableEq

/-- The `stdout.on("data")` handler (executor.ts lines 39-55):
`Buffer.write` stores at most the bytes that fit in the remaining
capacity and returns the number written; when `written !== data.length`
the handler sets `reason = "standard_output_exceeded"` and sends
`SIGKILL`; finally the offset advances by `written`. -/
def onStdoutData (limit : Nat) (s : ExecState) (data : List Nat) : ExecState :=
  let written := min data.length (limit - s.stdoutBuf.length)
  let s' :=
    if written ≠ data.length then
      { s with reason := "standard_output_exceeded", kills := s.kills ++ ["SIGKILL"] }
    else s
  { s' with stdoutBuf := s.stdoutBuf ++ data.take written }

/-- The `stderr.on("data")` handler (executor.ts lines 57-71), symmetric to
`onStdoutData` with `reason = "standard_error_exceeded"`. -/
def onStderrData (limit : Nat) (s : ExecState) (data : List Nat) : ExecState :=
  let written := min data.length (limit - s.stderrBuf.length)
  let s' :=
    if written ≠ data.length then
      { s with reason := "standard_error_exceeded", kills := s.kills ++ ["SIGKILL"] }
    else s
  { s' with stderrBuf := s.stderrBuf ++ data.take written }

/-- The spawn-option timeout firing: `execute` spawns with
`{ timeout: options.timeout, killSignal: "SIGKILL" }` (executor.ts lines
35-38), so when the timeout elapses Node delivers `SIGKILL` to the child.
The handler state (`reason` in particular) is untouched. -/
def onTimeoutFired (s : ExecState) : ExecState :=
  { s with kills := s.kills ++ ["SIGKILL"] }

/-- The result object assembled in the `exit` handler (executor.ts lines 73-90). -/
def mkExecution (s : ExecState) (exitCode : Option Int) (signal : Option String) :
    Execution :=
  { exitCode := exitCode
    standardOutput := s.stdoutBuf
    standardError := s.stderrBuf
    reason := s.reason
    signal := signal }

/-- How one `execute` call settles: the promise resolves with an
`Execution` (final handler state kept alongside, for stating kill facts),
rejects with the spawn error, or never settles. -/
inductive ExecOutcome where
  | resolved (result : Execution) (final : ExecState)
  | rejected (final : ExecState)
  | pending (final : ExecState)
  deriving Repr, DecidableEq

/-- Process the event trace in order; the first `exit` resolves and the
first `errorEvent` rejects (a promise settles once). -/
def runExecAux (oLimit eLimit : Nat) (s : ExecState) : List ExecEvent → ExecOutcome
  | [] => .pending s
  | .stdoutData data :: rest => runExecAux oLimit eLimit (onStdoutData oLimit s data) rest
  | .stderrData data :: rest => runExecAux oLimit eLimit (onStderrData eLimit s data) rest
  | .timeoutFired :: rest => runExecAux oLimit eLimit (onTimeoutFired s) rest
  | .exit exitCode signal :: _ => .resolved (mkExecution s exitCode signal) s
  | .errorEvent :: _ => .rejected s

/-- `execute executable argumentVector options`, abstracted over the trace
of events the spawned process produces. -/
def execute (options : ExecOptions) (trace : List ExecEvent) : ExecOutcome :=
  runExecAux options.standardOutputLimit options.standardErrorLimit
    ExecState.initial trace

/-- Total number of bytes the child wrote to stdout over a trace prefix. -/
def stdoutBytes : List ExecEvent → Nat
  | [] => 0
  | .stdoutData data :: rest => data.length + stdoutBytes rest
  | _ :: rest => stdoutBytes rest

/-- Total number of bytes the child wrote to stderr over a trace prefix. -/
def stderrBytes : List ExecEvent → Nat
  | [] => 0
  | .stderrData data :: rest => data.length + stderrBytes rest
  | _ :: rest => stderrBytes rest

/-- The trace settles with an `exit` event (no earlier spawn error). -/
def settlesWithExit : List ExecEvent → Prop
  | [] => False
  | .exit _ _ :: _ => True
  | .errorEvent :: _ => False
  | _ :: rest => settlesWithExit rest

/-- The trace settles with a spawn-level `error` event (no earlier exit). -/
def settlesWithError : List ExecEvent → Prop
  | [] => False
  | .exit _ _ :: _ => False
  | .errorEvent :: _ => True
  | _ :: rest => settlesWithError rest

instance : DecidablePred settlesWithExit := by
  intro t
  induction t with
  | nil => exact .isFalse (by simp [settlesWithExit])
  | cons e rest ih =>
    cases e with
    | stdoutData d => exact decidable_of_iff (settlesWithExit rest) (by simp [settlesWithExit])
    | stderrData d => exact decidable_of_iff (settlesWithExit rest) (by simp [settlesWithExit])
    | timeoutFired => exact decidable_of_iff (settlesWithExit rest) (by simp [settlesWithExit])
    | exit c g => exact .isTrue (by simp [settlesWithExit])
    | errorEvent => exact .isFalse (by simp [settlesWithExit])

instance : DecidablePred settlesWithError := by
  intro t
  induction t with
  | nil => exact .isFalse (by simp [settlesWithError])
  | cons e rest ih =>
    cases e with
    | stdoutData d => exact decidable_of_iff (settlesWithError rest) (by simp [settlesWithError])
    | stderrData d => exact decidable_of_iff (settlesWithError rest) (by simp [settlesWithError])
    | timeoutFired => exact decidable_of_iff (settlesWithError rest) (by simp [settlesWithError])
    | exit c g => exact .isFalse (by simp [settlesWithError])
    | errorEvent => exact .isTrue (by simp [settlesWithError])

/-- Whether an event settles the promise (`exit` resolves, `error` rejects). -/
def ExecEvent.isTerminal : ExecEvent → Bool
  | .exit _ _ => true
  | .errorEvent => true
  | _ => false

/-- The first settling event of the trace, if any. -/
def settlingEvent : List ExecEvent → Option ExecEvent
  | [] => none
  | e :: rest => if e.isTerminal then some e else settlingEvent rest

/-- The events the handlers process before the promise settles. -/
def delivered (trace : List ExecEvent) : List ExecEvent :=
  trace.takeWhile (fun e => !e.isTerminal)

/-- One handler invocation, as a total step function (settling events do
not mutate handler state). -/
def stepEvent (oLimit eLimit : Nat) (s : ExecState) : ExecEvent → ExecState
  | .stdoutData data => onStdoutData oLimit s data
  | .stderrData data => onStderrData eLimit s data
  | .timeoutFired => onTimeoutFired s
  | .exit _ _ => s
  | .errorEvent => s

/-- Folding the handlers over a list of events. -/
def procEvents (oLimit eLimit : Nat) (s : ExecState) (events : List ExecEvent) :
    ExecState :=
  events.foldl (stepEvent oLimit eLimit) s

/-! ## Runnable completion machinery (`src/driver/runnable.ts`) -/

/-- An error value carried through a Runnable attempt: either a timeout
error created by `createTimeoutError` (code `ERR_MOCHA_TIMEOUT`, carrying
the millisecond limit), or an arbitrary error raised by the test body. -/
inductive RunErr where
  | timeoutError (timeout : Nat)
  | bodyError (tag : Nat)
  deriving Repr, DecidableEq

/-- `Runnable._timeoutError` (runnable.ts lines 471-477) builds the
timeout error via `createTimeoutError(msg, ms, file)`, carrying `ms`. -/
def Runnable.mkTimeoutError (ms : Nat) : RunErr := .timeoutError ms

/-- The error object built by `createMultipleDoneError` (errors.ts lines
492-522): code `ERR_MOCHA_MULTIPLE_DONE`, `value` holding the error the
extra completion carried, emitted as a non-fatal `"error"` event. -/
structure MultipleDoneError where
  code : String
  value : Option RunErr
  deriving Repr, DecidableEq

def createMultipleDoneError (originalErr : Option RunErr) : MultipleDoneError :=
  { code := "ERR_MOCHA_MULTIPLE_DONE", value := originalErr }

/-- State of one `Runnable.run` attempt (runnable.ts lines 299-462):
the captured closure variables (`finished`, `errorWasHandled`), the
instance fields the attempt mutates (`timedOut`, `duration`, the pending
timer), plus observables: every invocation of the continuation `fn`
(in order, with the error it received) and every emitted `"error"` event. -/
structure RunAttempt where
  timeoutMs : Nat
  timedOut : Bool
  finished : Bool
  errorWasHandled : Bool
  timerArmed : Bool
  duration : Option Nat
  fnCalls : List (Option RunErr)
  errorEvents : List MultipleDoneError
  deriving Repr, DecidableEq

/-- Attempt state when `run` is entered: nothing finished, no timer. -/
def RunAttempt.initial (timeoutMs : Nat) : RunAttempt :=
  { timeoutMs := timeoutMs, timedOut := false, finished := false
    errorWasHandled := false, timerArmed := false, duration := none
    fnCalls := [], errorEvents := [] }

/-- `multiple(err)` (runnable.ts lines 314-320): emit one
`MultipleDoneError` unless an error was already handled. -/
def RunAttempt.multiple (s : RunAttempt) (err : Option RunErr) : RunAttempt :=
  if s.errorWasHandled then s
  else
    { s with
        errorWasHandled := true
        errorEvents := s.errorEvents ++ [createMultipleDoneError err] }

/-- `Runnable.clearTimeout` (runnable.ts lines 254-256). -/
def RunAttempt.clearPendingTimer (s : RunAttempt) : RunAttempt :=
  { s with timerArmed := false }

/-- `done(err)` (runnable.ts lines 323-340), invoked when the body
completes at elapsed time `t` ms: a timed-out attempt ignores the call;
a finished attempt reports `multiple`; otherwise it clears the timer,
records the duration, marks the attempt finished, upgrades a silent
over-deadline completion to a timeout error, and calls the continuation. -/
def RunAttempt.done (s : RunAttempt) (err : Option RunErr) (t : Nat) : RunAttempt :=
  if s.timedOut then s
  else if s.finished then s.multiple err
  else
    let s' := { s.clearPendingTimer with duration := some t, finished := true }
    let err' :=
      if err = none ∧ s.timeoutMs < t ∧ 0 < s.timeoutMs then
        some (Runnable.mkTimeoutError s.timeoutMs)
      else err
    { s' with fnCalls := s'.fnCalls ++ [err'] }

/-- `Runnable.resetTimeout` (runnable.ts lines 263-278): a timeout of 0
disables the deadline; otherwise a timer is armed for `timeoutMs` ms. -/
def RunAttempt.resetTimeout (s : RunAttempt) : RunAttempt :=
  if s.timeoutMs = 0 then s else { s with timerArmed := true }

/-- The armed `setTimeout` callback (runnable.ts lines 271-277), firing
`timeoutMs` ms after arming: when the timeout is still enabled it calls
`self.callback(self._timeoutError(ms))` — which is `done` at elapsed time
`timeoutMs` — and then sets `timedOut`.  A cleared timer never fires. -/
def RunAttempt.timerFire (s : RunAttempt) : RunAttempt :=
  if s.timerArmed = false then s
  else if s.timeoutMs = 0 then s
  else
    let s' := s.done (some (Runnable.mkTimeoutError s.timeoutMs)) s.timeoutMs
    { s' with timedOut := true }

/-- The two events one attempt can observe after its body starts: a
completion signal at elapsed time `t`, or the deadline timer firing. -/
inductive RunEvent where
  | doneCall (err : Option RunErr) (t : Nat)
  | timerFire
  deriving Repr, DecidableEq

def runStep (s : RunAttempt) : RunEvent → RunAttempt
  | .doneCall err t => s.done err t
  | .timerFire => s.timerFire

def runSteps (s : RunAttempt) (events : List RunEvent) : RunAttempt :=
  events.foldl runStep s

/-- `Runnable.timeout(ms)` (runnable.ts lines 129-153): clamp to
`[0, 2^31 - 1]` via `utils.clamp` and store, except that hitting either
endpoint stores 0 (timeouts disabled).  A string shorthand argument is
first converted to a number by the external `ms` library and then follows
the same path, so the setter is modelled on the numeric value. -/
def INT_MAX : Nat := 2 ^ 31 - 1

/-- `utils.clamp(value, range) = Math.min(Math.max(value, range[0]), range[1])`
(part_017). -/
def clamp (value lo hi : Int) : Int := min (max value lo) hi

def Runnable.timeoutSet (ms : Int) : Int :=
  let ms' := clamp ms 0 (INT_MAX : Int)
  if ms' = 0 ∨ ms' = (INT_MAX : Int) then 0 else ms'

/-! ## Mocha instance lifecycle (part_016) -/

/-- `mochaStates` (part_016 lines 46-68). -/
inductive MochaState where
  | init
  | running
  | referencesCleaned
  | disposed
  deriving Repr, DecidableEq

/-- The two lifecycle errors `guardRunningStateTransition` can throw. -/
inductive MochaLifecycleError where
  | alreadyRunning
  | alreadyDisposed
  deriving Repr, DecidableEq

/-- The `code` property the error factories assign (errors.ts lines
127, 134). -/
def MochaLifecycleError.code : MochaLifecycleError → String
  | .alreadyRunning => "ERR_MOCHA_INSTANCE_ALREADY_RUNNING"
  | .alreadyDisposed => "ERR_MOCHA_INSTANCE_ALREADY_DISPOSED"

/-- `Mocha.guardRunningStateTransition` (part_016 lines 1049-1066):
running → already-running error; disposed or referencesCleaned →
already-disposed error. -/
def guardRunningStateTransition : MochaState → Option MochaLifecycleError
  | .running => some .alreadyRunning
  | .disposed => some .alreadyDisposed
  | .referencesCleaned => some .alreadyDisposed
  | .init => none

/-- Entry of `Mocha.run` (part_016 lines 1094-1096): the guard, then
`this._state = RUNNING`. -/
def mochaRunStart (s : MochaState) : Except MochaLifecycleError MochaState :=
  match guardRunningStateTransition s with
  | some e => .error e
  | none => .ok .running

/-- The `done` callback of `Mocha.run` (part_016 lines 1132-1137): after
the run, the state becomes `referencesCleaned` when
`_cleanReferencesAfterRun` is set, else `init`. -/
def mochaRunDone (cleanReferencesAfterRun : Bool) : MochaState :=
  if cleanReferencesAfterRun then .referencesCleaned else .init

/-- `Mocha.unloadFiles` (part_016 lines 637-651): throws already-disposed
when disposed, otherwise resets the state to `init`. -/
def mochaUnloadFiles : MochaState → Except MochaLifecycleError MochaState
  | .disposed => .error .alreadyDisposed
  | _ => .ok .init

/-- `Mocha.dispose` (part_016 lines 769-779): throws already-running when
running; otherwise calls `unloadFiles` (which throws when already
disposed) and then marks the instance `disposed`. -/
def mochaDispose (s : MochaState) : Except MochaLifecycleError MochaState :=
  if s = .running then .error .alreadyRunning
  else
    match mochaUnloadFiles s with
    | .error e => .error e
    | .ok _ => .ok .disposed

/-- The state-changing operations a consumer can invoke; `runOp` is a full
`run` (guard, RUNNING, then the done callback).  A thrown error leaves the
stored `_state` unchanged. -/
inductive MochaOp where
  | runOp (cleanReferencesAfterRun : Bool)
  | unloadOp
  | disposeOp
  deriving Repr, DecidableEq

def mochaStep (s : MochaState) : MochaOp → MochaState
  | .runOp clean =>
      match mochaRunStart s with
      | .error _ => s
      | .ok _ => mochaRunDone clean
  | .unloadOp =>
      match mochaUnloadFiles s with
      | .error _ => s
      | .ok s' => s'
  | .disposeOp =>
      match mochaDispose s with
      | .error _ => s
      | .ok s' => s'

/-! ## Test.reset (part_016 lines 1428-1435) and Runnable.reset -/

/-- The `Test` fields the pending/reset claims touch.  `hasFn` records
whether a callback `fn` was supplied at construction. -/
structure Test where
  title : String
  hasFn : Bool
  pending : Bool
  timedOut : Bool
  currentRetry : Nat
  state : Option String
  deriving Repr, DecidableEq

/-- `Runnable.reset` (runnable.ts lines 100-106): clears `timedOut`,
`_currentRetry`, `pending`, `state` and `err`. -/
def Runnable.reset (t : Test) : Test :=
  { t with timedOut := false, currentRetry := 0, pending := false, state := none }

/-- `Test.reset` (part_016 lines 1428-1435): `super.reset()` then
`this.pending = !this.fn` and `delete this.state`. -/
def Test.reset (t : Test) : Test :=
  let t' := Runnable.reset t
  { t' with pending := !t'.hasFn, state := none }

/-- `new Test(title, description, fn)`: the `Runnable` constructor stores
the fields and calls `this.reset()` (dispatching to `Test.reset`), and the
`Test` constructor calls `this.reset()` once more (part_016 lines
1401-1413, runnable.ts lines 77-95). -/
def Test.create (title : String) (hasFn : Bool) : Test :=
  Test.reset (Test.reset
    { title := title, hasFn := hasFn, pending := false, timedOut := false
      currentRetry := 0, state := none })

/-! ## Declaration-time `forbidOnly` guard (`src/driver/interfaces/common.ts`) -/

/-- The error built by `createForbiddenExclusivityError` (errors.ts lines
524-548): code `ERR_MOCHA_FORBIDDEN_EXCLUSIVITY`, message depending on
whether this Mocha instance is a parallel worker. -/
structure ForbiddenExclusivityError where
  message : String
  code : String
  deriving Repr, DecidableEq

def createForbiddenExclusivityError (isWorker : Bool) : ForbiddenExclusivityError :=
  { message :=
      if isWorker then "`.only` is not supported in parallel mode"
      else "`.only` forbidden by --forbid-only"
    code := "ERR_MOCHA_FORBIDDEN_EXCLUSIVITY" }

/-- A declaration executed while a test file loads: a plain test, an
exclusive test (`test.only`, common.ts lines 181-187), a plain suite, or
an exclusive suite (`suite.only`, common.ts lines 99-105). -/
inductive Decl where
  | testDecl (id : Nat)
  | testOnly (id : Nat)
  | suiteDecl (id : Nat)
  | suiteOnly (id : Nat)
  deriving Repr, DecidableEq

/-- Suite-tree knowledge the claims need: the declared tests in order and
the ids marked exclusive. -/
structure LoadState where
  tests : List Nat
  onlyMarked : List Nat
  deriving Repr, DecidableEq

/-- One declaration step: both `only` entry points check
`mocha.options.forbidOnly` and throw `createForbiddenExclusivityError`
BEFORE marking anything. -/
def loadDecl (forbidOnly isWorker : Bool) (s : LoadState) :
    Decl → Except ForbiddenExclusivityError LoadState
  | .testDecl i => .ok { s with tests := s.tests ++ [i] }
  | .testOnly i =>
      if forbidOnly then .error (createForbiddenExclusivityError isWorker)
      else .ok { tests := s.tests ++ [i], onlyMarked := s.onlyMarked ++ [i] }
  | .suiteDecl _ => .ok s
  | .suiteOnly i =>
      if forbidOnly then .error (createForbiddenExclusivityError isWorker)
      else .ok { s with onlyMarked := s.onlyMarked ++ [i] }

def loadDecls (forbidOnly isWorker : Bool) :
    LoadState → List Decl → Except ForbiddenExclusivityError LoadState
  | s, [] => .ok s
  | s, d :: rest =>
      match loadDecl forbidOnly isWorker s d with
      | .error e => .error e
      | .ok s' => loadDecls forbidOnly isWorker s' rest

/-- The declaration is one of the two exclusive entry points. -/
def Decl.isOnlyMark : Decl → Bool
  | .testOnly _ => true
  | .suiteOnly _ => true
  | _ => false

/-- The declaration list marks some test or suite exclusive. -/
def declaresOnly (decls : List Decl) : Prop :=
  decls.any Decl.isOnlyMark = true

/-- `mocha.run` with lazily loaded declaration files: loading (which
executes the declarations) happens inside `run` before the Runner starts
(part_016 lines 1100-1102), so a load error aborts the run before any
test executes; on success every declared test runs (returned in order). -/
def mochaRunWithDecls (forbidOnly isWorker : Bool) (decls : List Decl) :
    Except ForbiddenExclusivityError (List Nat) :=
  match loadDecls forbidOnly isWorker { tests := [], onlyMarked := [] } decls with
  | .error e => .error e
  | .ok s => .ok s.tests

theorem procEvents_nil (oLimit eLimit : Nat) (s : ExecState) :
    procEvents oLimit eLimit s [] = s := rfl

theorem procEvents_cons (oLimit eLimit : Nat) (s : ExecState) (e : ExecEvent)
    (rest : List ExecEvent) :
    procEvents oLimit eLimit s (e :: rest) =
      procEvents oLimit eLimit (stepEvent oLimit eLimit s e) rest := rfl

/-- A trace that settles with `exit exitCode signal` resolves with the
result built from the state after processing the delivered prefix. -/
theorem runExecAux_resolves (oLimit eLimit : Nat) (s : ExecState)
    (trace : List ExecEvent) (exitCode : Option Int) (signal : Option String)
    (h : settlingEvent trace = some (.exit exitCode signal)) :
    runExecAux oLimit eLimit s trace =
      .resolved
        (mkExecution (procEvents oLimit eLimit s (delivered trace)) exitCode signal)
        (procEvents oLimit eLimit s (delivered trace)) := by
  induction trace generalizing s with
  | nil => simp [settlingEvent] at h
  | cons e rest ih =>
    cases e with
    | stdoutData d =>
      simp only [settlingEvent, ExecEvent.isTerminal, if_neg] at h
      simpa [runExecAux, delivered, List.takeWhile, ExecEvent.isTerminal,
        procEvents_cons, stepEvent] using ih _ h
    | stderrData d =>
      simp only [settlingEvent, ExecEvent.isTerminal, if_neg] at h
      simpa [runExecAux, delivered, List.takeWhile, ExecEvent.isTerminal,
        procEvents_cons, stepEvent] using ih _ h
    | timeoutFired =>
      simp only [settlingEvent, ExecEvent.isTerminal, if_neg] at h
      simpa [runExecAux, delivered, List.takeWhile, ExecEvent.isTerminal,
        procEvents_cons, stepEvent] using ih _ h
    | exit c g =>
      simp only [settlingEvent, ExecEvent.isTerminal, if_pos, Option.some.injEq] at h
      cases h
      simp [runExecAux, delivered, List.takeWhile, ExecEvent.isTerminal, procEvents_nil]
    | errorEvent =>
      simp [settlingEvent, ExecEvent.isTerminal] at h

/-- A trace whose first settling event is a spawn `error` rejects. -/
theorem runExecAux_rejects (oLimit eLimit : Nat) (s : ExecState)
    (trace : List ExecEvent)
    (h : settlingEvent trace = some .errorEvent) :
    runExecAux oLimit eLimit s trace =
      .rejected (procEvents oLimit eLimit s (delivered trace)) := by
  induction trace generalizing s with
  | nil => simp [settlingEvent] at h
  | cons e rest ih =>
    cases e with
    | stdoutData d =>
      simp only [settlingEvent, ExecEvent.isTerminal, if_neg] at h
      simpa [runExecAux, delivered, List.takeWhile, ExecEvent.isTerminal,
        procEvents_cons, stepEvent] using ih _ h
    | stderrData d =>
      simp only [settlingEvent, ExecEvent.isTerminal, if_neg] at h
      simpa [runExecAux, delivered, List.takeWhile, ExecEvent.isTerminal,
        procEvents_cons, stepEvent] using ih _ h
    | timeoutFired =>
      simp only [settlingEvent, ExecEvent.isTerminal, if_neg] at h
      simpa [runExecAux, delivered, List.takeWhile, ExecEvent.isTerminal,
        procEvents_cons, stepEvent] using ih _ h
    | exit c g =>
      simp [settlingEvent, ExecEvent.isTerminal] at h
    | errorEvent =>
      simp [runExecAux, delivered, List.takeWhile, ExecEvent.isTerminal, procEvents_nil]

/-- `settlesWithError` coincides with the settling event being `errorEvent`. -/
theorem settlesWithError_iff (trace : List ExecEvent) :
    settlesWithError trace ↔ settlingEvent trace = some .errorEvent := by
  induction trace with
  | nil => simp [settlesWithError, settlingEvent]
  | cons e rest ih =>
    cases e <;>
      simp [settlesWithError, settlingEvent, ExecEvent.isTerminal, ih]

/-- `settlesWithExit` coincides with the settling event being an `exit`. -/
theorem settlesWithExit_iff (trace : List ExecEvent) :
    settlesWithExit trace ↔
      ∃ c g, settlingEvent trace = some (.exit c g) := by
  induction trace with
  | nil => simp [settlesWithExit, settlingEvent]
  | cons e rest ih =>
    cases e <;>
      simp [settlesWithExit, settlingEvent, ExecEvent.isTerminal, ih]

/-- A chunk that fits in the remaining stdout capacity only appends bytes. -/
theorem onStdoutData_fit (limit : Nat) (s : ExecState) (data : List Nat)
    (h : s.stdoutBuf.length + data.length ≤ limit) :
    onStdoutData limit s data = { s with stdoutBuf := s.stdoutBuf ++ data } := by
  unfold onStdoutData
  have hmin : min data.length (limit - s.stdoutBuf.length) = data.length := by omega
  simp [hmin]

/-- A chunk that would exceed the stdout capacity triggers the overflow
branch: truncation, reason change and a `SIGKILL`. -/
theorem onStdoutData_over (limit : Nat) (s : ExecState) (data : List Nat)
    (hlen : s.stdoutBuf.length ≤ limit)
    (h : limit < s.stdoutBuf.length + data.length) :
    onStdoutData limit s data =
      { s with
          reason := "standard_output_exceeded"
          kills := s.kills ++ ["SIGKILL"]
          stdoutBuf := s.stdoutBuf ++ data.take (limit - s.stdoutBuf.length) } := by
  have hmin : min data.length (limit - s.stdoutBuf.length) = limit - s.stdoutBuf.length := by
    omega
  have hne : min data.length (limit - s.stdoutBuf.length) ≠ data.length := by omega
  have hne2 : limit - s.stdoutBuf.length ≠ data.length := by omega
  simp [onStdoutData, hne, hmin, hne2]

/-- A chunk that fits in the remaining stderr capacity only appends bytes. -/
theorem onStderrData_fit (limit : Nat) (s : ExecState) (data : List Nat)
    (h : s.stderrBuf.length + data.length ≤ limit) :
    onStderrData limit s data = { s with stderrBuf := s.stderrBuf ++ data } := by
  unfold onStderrData
  have hmin : min data.length (limit - s.stderrBuf.length) = data.length := by omega
  simp [hmin]

/-- A chunk that would exceed the stderr capacity triggers the overflow
branch. -/
theorem onStderrData_over (limit : Nat) (s : ExecState) (data : List Nat)
    (hlen : s.stderrBuf.length ≤ limit)
    (h : limit < s.stderrBuf.length + data.length) :
    onStderrData limit s data =
      { s with
          reason := "standard_error_exceeded"
          kills := s.kills ++ ["SIGKILL"]
          stderrBuf := s.stderrBuf ++ data.take (limit - s.stderrBuf.length) } := by
  have hmin : min data.length (limit - s.stderrBuf.length) = limit - s.stderrBuf.length := by
    omega
  have hne : min data.length (limit - s.stderrBuf.length) ≠ data.length := by omega
  have hne2 : limit - s.stderrBuf.length ≠ data.length := by omega
  simp [onStderrData, hne, hmin, hne2]

theorem onStdoutData_length (limit : Nat) (s : ExecState) (data : List Nat)
    (h : s.stdoutBuf.length ≤ limit) :
    (onStdoutData limit s data).stdoutBuf.length =
      min (s.stdoutBuf.length + data.length) limit := by
  by_cases hc : s.stdoutBuf.length + data.length ≤ limit
  · rw [onStdoutData_fit _ _ _ hc]; simp; omega
  · rw [onStdoutData_over _ _ _ h (by omega)]; simp [List.length_take]; omega

theorem onStderrData_length (limit : Nat) (s : ExecState) (data : List Nat)
    (h : s.stderrBuf.length ≤ limit) :
    (onStderrData limit s data).stderrBuf.length =
      min (s.stderrBuf.length + data.length) limit := by
  by_cases hc : s.stderrBuf.length + data.length ≤ limit
  · rw [onStderrData_fit _ _ _ hc]; simp; omega
  · rw [onStderrData_over _ _ _ h (by omega)]; simp [List.length_take]; omega

/-- A handler step never touches the other stream's buffer. -/
theorem stepEvent_stderrBuf_stdout (oLimit eLimit : Nat) (s : ExecState)
    (data : List Nat) :
    (stepEvent oLimit eLimit s (.stdoutData data)).stderrBuf = s.stderrBuf := by
  simp only [stepEvent, onStdoutData]
  split <;> rfl

theorem stepEvent_stdoutBuf_stderr (oLimit eLimit : Nat) (s : ExecState)
    (data : List Nat) :
    (stepEvent oLimit eLimit s (.stderrData data)).stdoutBuf = s.stdoutBuf := by
  simp only [stepEvent, onStderrData]
  split <;> rfl

/-- The stdout buffer accumulates `min (bytes written so far) limit` bytes. -/
theorem procEvents_stdout_length (oLimit eLimit : Nat) (events : List ExecEvent)
    (s : ExecState) (h : s.stdoutBuf.length ≤ oLimit) :
    (procEvents oLimit eLimit s events).stdoutBuf.length =
      min (s.stdoutBuf.length + stdoutBytes events) oLimit := by
  induction events generalizing s with
  | nil => simp [procEvents_nil, stdoutBytes]; omega
  | cons e rest ih =>
    rw [procEvents_cons]
    cases e with
    | stdoutData d =>
      rw [ih _ (by rw [stepEvent, onStdoutData_length _ _ _ h]; omega)]
      rw [stepEvent, onStdoutData_length _ _ _ h]
      simp [stdoutBytes]; omega
    | stderrData d =>
      rw [ih _ (by rw [stepEvent_stdoutBuf_stderr]; exact h)]
      rw [stepEvent_stdoutBuf_stderr]
      simp [stdoutBytes]
    | timeoutFired =>
      rw [ih _ (by simpa [stepEvent, onTimeoutFired])]
      simp [stepEvent, onTimeoutFired, stdoutBytes]
    | exit c g => rw [ih _ (by simpa [stepEvent])]; simp [stepEvent, stdoutBytes]
    | errorEvent => rw [ih _ (by simpa [stepEvent])]; simp [stepEvent, stdoutBytes]

/-- The stderr buffer accumulates `min (bytes written so far) limit` bytes. -/
theorem procEvents_stderr_length (oLimit eLimit : Nat) (events : List ExecEvent)
    (s : ExecState) (h : s.stderrBuf.length ≤ eLimit) :
    (procEvents oLimit eLimit s events).stderrBuf.length =
      min (s.stderrBuf.length + stderrBytes events) eLimit := by
  induction events generalizing s with
  | nil => simp [procEvents_nil, stderrBytes]; omega
  | cons e rest ih =>
    rw [procEvents_cons]
    cases e with
    | stdoutData d =>
      rw [ih _ (by rw [stepEvent_stderrBuf_stdout]; exact h)]
      rw [stepEvent_stderrBuf_stdout]
      simp [stderrBytes]
    | stderrData d =>
      rw [ih _ (by rw [stepEvent, onStderrData_length _ _ _ h]; omega)]
      rw [stepEvent, onStderrData_length _ _ _ h]
      simp [stderrBytes]; omega
    | timeoutFired =>
      rw [ih _ (by simpa [stepEvent, onTimeoutFired])]
      simp [stepEvent, onTimeoutFired, stderrBytes]
    | exit c g => rw [ih _ (by simpa [stepEvent])]; simp [stepEvent, stderrBytes]
    | errorEvent => rw [ih _ (by simpa [stepEvent])]; simp [stepEvent, stderrBytes]

/-- Signals already sent are never retracted. -/
theorem procEvents_kills_mono (oLimit eLimit : Nat) (events : List ExecEvent)
    (s : ExecState) (x : String) (h : x ∈ s.kills) :
    x ∈ (procEvents oLimit eLimit s events).kills := by
  induction events generalizing s with
  | nil => simpa [procEvents_nil]
  | cons e rest ih =>
    rw [procEvents_cons]
    refine ih _ ?_
    cases e <;>
      simp only [stepEvent, onStdoutData, onStderrData, onTimeoutFired] <;>
      first
        | (split <;> simp_all)
        | simp_all

/-- A timeout firing before settlement always leaves `SIGKILL` in the
delivered-signal list. -/
theorem procEvents_timeout_kill (oLimit eLimit : Nat) (events : List ExecEvent)
    (s : ExecState) (h : ExecEvent.timeoutFired ∈ events) :
    "SIGKILL" ∈ (procEvents oLimit eLimit s events).kills := by
  induction events generalizing s with
  | nil => simp at h
  | cons e rest ih =>
    rw [procEvents_cons]
    rcases List.mem_cons.mp h with he | he
    · subst he
      exact procEvents_kills_mono _ _ _ _ _ (by simp [stepEvent, onTimeoutFired])
    · exact ih _ he

/-- If the bytes still to arrive on both streams fit their remaining
capacities, no handler changes `reason` (only the spawn-level timeout may
still send a signal). -/
theorem procEvents_no_overflow (oLimit eLimit : Nat) (events : List ExecEvent)
    (s : ExecState)
    (ho : s.stdoutBuf.length + stdoutBytes events ≤ oLimit)
    (he : s.stderrBuf.length + stderrBytes events ≤ eLimit) :
    (procEvents oLimit eLimit s events).reason = s.reason := by
  induction events generalizing s with
  | nil => simp [procEvents_nil]
  | cons e rest ih =>
    rw [procEvents_cons]
    cases e with
    | stdoutData d =>
      simp only [stdoutBytes] at ho
      simp only [stderrBytes] at he
      rw [stepEvent, onStdoutData_fit _ _ _ (by omega)]
      exact ih _ (by simpa using by omega) (by simpa using he)
    | stderrData d =>
      simp only [stdoutBytes] at ho
      simp only [stderrBytes] at he
      rw [stepEvent, onStderrData_fit _ _ _ (by omega)]
      exact ih _ (by simpa using ho) (by simpa using by omega)
    | timeoutFired =>
      simp only [stepEvent, onTimeoutFired]
      exact ih _ (by simpa using ho) (by simpa using he)
    | exit c g => exact ih _ (by simpa [stepEvent] using ho) (by simpa [stepEvent] using he)
    | errorEvent => exact ih _ (by simpa [stepEvent] using ho) (by simpa [stepEvent] using he)

/-- Main stdout-overflow lemma: as long as the stderr stream stays in
budget, once the stdout stream delivers more bytes than fit — or the
overflow has already been recorded — processing ends with
`reason = "standard_output_exceeded"` and a `SIGKILL` among the sent
signals. -/
theorem procEvents_stdout_overflow (oLimit eLimit : Nat)
    (events : List ExecEvent) (s : ExecState)
    (hlen : s.stdoutBuf.length ≤ oLimit)
    (hover : oLimit < s.stdoutBuf.length + stdoutBytes events ∨
      (s.reason = "standard_output_exceeded" ∧ "SIGKILL" ∈ s.kills))
    (he : s.stderrBuf.length + stderrBytes events ≤ eLimit) :
    (procEvents oLimit eLimit s events).reason = "standard_output_exceeded" ∧
      "SIGKILL" ∈ (procEvents oLimit eLimit s events).kills := by
  induction events generalizing s with
  | nil =>
    rcases hover with hover | hover
    · simp only [stdoutBytes] at hover; omega
    · simpa [procEvents_nil] using hover
  | cons e rest ih =>
    rw [procEvents_cons]
    cases e with
    | stdoutData d =>
      simp only [stdoutBytes, stderrBytes] at hover he
      by_cases hc : s.stdoutBuf.length + d.length ≤ oLimit
      · rw [stepEvent, onStdoutData_fit _ _ _ hc]
        refine ih _ (by simpa using hc) ?_ (by simpa using he)
        rcases hover with hover | hover
        · exact Or.inl (by simpa using by omega)
        · exact Or.inr (by simpa using hover)
      · rw [stepEvent, onStdoutData_over _ _ _ hlen (by omega)]
        refine ih _ (by simp [List.length_take]; omega) (Or.inr (by simp))
          (by simpa using he)
    | stderrData d =>
      simp only [stdoutBytes, stderrBytes] at hover he
      rw [stepEvent, onStderrData_fit _ _ _ (by omega)]
      refine ih _ (by simpa using hlen) ?_ (by simpa using by omega)
      rcases hover with hover | hover
      · exact Or.inl (by simpa using hover)
      · exact Or.inr (by simpa using hover)
    | timeoutFired =>
      simp only [stdoutBytes, stderrBytes] at hover he
      simp only [stepEvent, onTimeoutFired]
      refine ih _ (by simpa using hlen) ?_ (by simpa using he)
      rcases hover with hover | hover
      · exact Or.inl (by simpa using hover)
      · exact Or.inr ⟨by simpa using hover.1, by simp [hover.2]⟩
    | exit c g =>
      simp only [stdoutBytes, stderrBytes] at hover he
      refine ih _ (by simpa [stepEvent] using hlen) ?_ (by simpa [stepEvent] using he)
      rcases hover with hover | hover
      · exact Or.inl (by simpa [stepEvent] using hover)
      · exact Or.inr (by simpa [stepEvent] using hover)
    | errorEvent =>
      simp only [stdoutBytes, stderrBytes] at hover he
      refine ih _ (by simpa [stepEvent] using hlen) ?_ (by simpa [stepEvent] using he)
      rcases hover with hover | hover
      · exact Or.inl (by simpa [stepEvent] using hover)
      · exact Or.inr (by simpa [stepEvent] using hover)

/-- A trace with no settling event leaves the promise pending. -/
theorem runExecAux_pending (oLimit eLimit : Nat) (s : ExecState)
    (trace : List ExecEvent) (h : settlingEvent trace = none) :
    runExecAux oLimit eLimit s trace =
      .pending (procEvents oLimit eLimit s (delivered trace)) := by
  induction trace generalizing s with
  | nil => simp [runExecAux, delivered, procEvents_nil]
  | cons e rest ih =>
    cases e with
    | stdoutData d =>
      simp only [settlingEvent, ExecEvent.isTerminal, if_neg] at h
      simpa [runExecAux, delivered, List.takeWhile, ExecEvent.isTerminal,
        procEvents_cons, stepEvent] using ih _ h
    | stderrData d =>
      simp only [settlingEvent, ExecEvent.isTerminal, if_neg] at h
      simpa [runExecAux, delivered, List.takeWhile, ExecEvent.isTerminal,
        procEvents_cons, stepEvent] using ih _ h
    | timeoutFired =>
      simp only [settlingEvent, ExecEvent.isTerminal, if_neg] at h
      simpa [runExecAux, delivered, List.takeWhile, ExecEvent.isTerminal,
        procEvents_cons, stepEvent] using ih _ h
    | exit c g => simp [settlingEvent, ExecEvent.isTerminal] at h
    | errorEvent => simp [settlingEvent, ExecEvent.isTerminal] at h

/-- The settling event of a trace, if any, is an `exit` or the spawn error. -/
theorem settlingEvent_cases (trace : List ExecEvent) :
    settlingEvent trace = none ∨
      (∃ c g, settlingEvent trace = some (.exit c g)) ∨
      settlingEvent trace = some .errorEvent := by
  induction trace with
  | nil => exact Or.inl rfl
  | cons e rest ih =>
    cases e with
    | stdoutData d => simpa [settlingEvent, ExecEvent.isTerminal] using ih
    | stderrData d => simpa [settlingEvent, ExecEvent.isTerminal] using ih
    | timeoutFired => simpa [settlingEvent, ExecEvent.isTerminal] using ih
    | exit c g => exact Or.inr (Or.inl ⟨c, g, by simp [settlingEvent, ExecEvent.isTerminal]⟩)
    | errorEvent => exact Or.inr (Or.inr (by simp [settlingEvent, ExecEvent.isTerminal]))

/-- Mirror of `procEvents_stdout_overflow` for the stderr stream. -/
theorem procEvents_stderr_overflow (oLimit eLimit : Nat)
    (events : List ExecEvent) (s : ExecState)
    (hlen : s.stderrBuf.length ≤ eLimit)
    (hover : eLimit < s.stderrBuf.length + stderrBytes events ∨
      (s.reason = "standard_error_exceeded" ∧ "SIGKILL" ∈ s.kills))
    (ho : s.stdoutBuf.length + stdoutBytes events ≤ oLimit) :
    (procEvents oLimit eLimit s events).reason = "standard_error_exceeded" ∧
      "SIGKILL" ∈ (procEvents oLimit eLimit s events).kills := by
  induction events generalizing s with
  | nil =>
    rcases hover with hover | hover
    · simp only [stderrBytes] at hover; omega
    · simpa [procEvents_nil] using hover
  | cons e rest ih =>
    rw [procEvents_cons]
    cases e with
    | stderrData d =>
      simp only [stdoutBytes, stderrBytes] at hover ho
      by_cases hc : s.stderrBuf.length + d.length ≤ eLimit
      · rw [stepEvent, onStderrData_fit _ _ _ hc]
        refine ih _ (by simpa using hc) ?_ (by simpa using ho)
        rcases hover with hover | hover
        · exact Or.inl (by simpa using by omega)
        · exact Or.inr (by simpa using hover)
      · rw [stepEvent, onStderrData_over _ _ _ hlen (by omega)]
        refine ih _ (by simp [List.length_take]; omega) (Or.inr (by simp))
          (by simpa using ho)
    | stdoutData d =>
      simp only [stdoutBytes, stderrBytes] at hover ho
      rw [stepEvent, onStdoutData_fit _ _ _ (by omega)]
      refine ih _ (by simpa using hlen) ?_ (by simpa using by omega)
      rcases hover with hover | hover
      · exact Or.inl (by simpa using hover)
      · exact Or.inr (by simpa using hover)
    | timeoutFired =>
      simp only [stdoutBytes, stderrBytes] at hover ho
      simp only [stepEvent, onTimeoutFired]
      refine ih _ (by simpa using hlen) ?_ (by simpa using ho)
      rcases hover with hover | hover
      · exact Or.inl (by simpa using hover)
      · exact Or.inr ⟨by simpa using hover.1, by simp [hover.2]⟩
    | exit c g =>
      simp only [stdoutBytes, stderrBytes] at hover ho
      refine ih _ (by simpa [stepEvent] using hlen) ?_ (by simpa [stepEvent] using ho)
      rcases hover with hover | hover
      · exact Or.inl (by simpa [stepEvent] using hover)
      · exact Or.inr (by simpa [stepEvent] using hover)
    | errorEvent =>
      simp only [stdoutBytes, stderrBytes] at hover ho
      refine ih _ (by simpa [stepEvent] using hlen) ?_ (by simpa [stepEvent] using ho)
      rcases hover with hover | hover
      · exact Or.inl (by simpa [stepEvent] using hover)
      · exact Or.inr (by simpa [stepEvent] using hover)

/-- C1 (counterexample): the claim as stated is false.  With both limits
set to 2 bytes, a child that writes 3 bytes to stdout (more than `L`) and
then 3 bytes to stderr resolves with `reason = "standard_error_exceeded"`,
not `"standard_output_exceeded"`: the two handlers share one `reason`
variable and the last overflow wins (executor.ts lines 33, 47, 66). -/
theorem execute_output_limit_counterexample :
    execute { standardOutputLimit := 2, standardErrorLimit := 2 }
        [.stdoutData [1, 1, 1], .stderrData [1, 1, 1], .exit none (some "SIGKILL")] =
      .resolved
        { exitCode := none, standardOutput := [1, 1], standardError := [1, 1],
          reason := "standard_error_exceeded", signal := some "SIGKILL" }
        { stdoutBuf := [1, 1], stderrBuf := [1, 1],
          reason := "standard_error_exceeded", kills := ["SIGKILL", "SIGKILL"] } ∧
      2 < stdoutBytes (delivered
        [.stdoutData [1, 1, 1], .stderrData [1, 1, 1], .exit none (some "SIGKILL")]) := by
  constructor
  · rfl
  · decide

/-- C1 (amended): for an `execute` invocation whose child exits, if one
stream writes more than its byte limit while the other stream stays within
its own limit, the resolved `Execution` has that stream's overflow reason,
the captured text of the stream holds at most the bytes that fit in its
buffer, and the process was sent the uncatchable `SIGKILL`.  (Without the
side condition on the other stream the reasons can overwrite each other,
see the counterexample.) -/
theorem execute_output_limit (opts : ExecOptions) (trace : List ExecEvent)
    (exitCode : Option Int) (signal : Option String)
    (hs : settlingEvent trace = some (.exit exitCode signal)) :
    (opts.standardOutputLimit < stdoutBytes (delivered trace) →
      stderrBytes (delivered trace) ≤ opts.standardErrorLimit →
      ∃ result final, execute opts trace = .resolved result final ∧
        result.reason = "standard_output_exceeded" ∧
        result.standardOutput.length ≤ opts.standardOutputLimit ∧
        "SIGKILL" ∈ final.kills) ∧
    (opts.standardErrorLimit < stderrBytes (delivered trace) →
      stdoutBytes (delivered trace) ≤ opts.standardOutputLimit →
      ∃ result final, execute opts trace = .resolved result final ∧
        result.reason = "standard_error_exceeded" ∧
        result.standardError.length ≤ opts.standardErrorLimit ∧
        "SIGKILL" ∈ final.kills) := by
  rw [execute, runExecAux_resolves _ _ _ _ _ _ hs]
  constructor
  · intro hover he
    refine ⟨_, _, rfl, ?_, ?_, ?_⟩
    · exact (procEvents_stdout_overflow _ _ _ _ (by simp [ExecState.initial])
        (Or.inl (by simpa [ExecState.initial] using hover))
        (by simpa [ExecState.initial] using he)).1
    · rw [mkExecution]
      rw [procEvents_stdout_length _ _ _ _ (by simp [ExecState.initial])]
      simp [ExecState.initial]
    · exact (procEvents_stdout_overflow _ _ _ _ (by simp [ExecState.initial])
        (Or.inl (by simpa [ExecState.initial] using hover))
        (by simpa [ExecState.initial] using he)).2
  · intro hover ho
    refine ⟨_, _, rfl, ?_, ?_, ?_⟩
    · exact (procEvents_stderr_overflow _ _ _ _ (by simp [ExecState.initial])
        (Or.inl (by simpa [ExecState.initial] using hover))
        (by simpa [ExecState.initial] using ho)).1
    · rw [mkExecution]
      rw [procEvents_stderr_length _ _ _ _ (by simp [ExecState.initial])]
      simp [ExecState.initial]
    · exact (procEvents_stderr_overflow _ _ _ _ (by simp [ExecState.initial])
        (Or.inl (by simpa [ExecState.initial] using hover))
        (by simpa [ExecState.initial] using ho)).2

/-- Witness for `execute_output_limit` at limits of 2 bytes: a child that
writes 3 bytes to stdout and nothing to stderr. -/
theorem execute_output_limit_witness :
    ∃ result final,
      execute { standardOutputLimit := 2, standardErrorLimit := 2 }
          [.stdoutData [1, 1, 1], .exit none (some "SIGKILL")] =
        .resolved result final ∧
      result.reason = "standard_output_exceeded" ∧
      result.standardOutput.length ≤ 2 ∧
      "SIGKILL" ∈ final.kills :=
  (execute_output_limit { standardOutputLimit := 2, standardErrorLimit := 2 }
      [.stdoutData [1, 1, 1], .exit none (some "SIGKILL")] none (some "SIGKILL")
      (by decide)).1 (by decide) (by decide)

/-- C2 (counterexample): the claim as stated is false.  With
`timeout = 100`, a child that outlives the deadline is killed by the spawn
timeout and exits with signal `SIGKILL`, but the resolved `Execution` still
carries `reason = "success"`: nothing in the exit handler (executor.ts
lines 73-90) or the timeout path ever writes a "timed out" reason. -/
theorem execute_timeout_counterexample :
    execute { timeout := some 100 } [.timeoutFired, .exit none (some "SIGKILL")] =
      .resolved
        { exitCode := none, standardOutput := [], standardError := [],
          reason := "success", signal := some "SIGKILL" }
        { stdoutBuf := [], stderrBuf := [], reason := "success",
          kills := ["SIGKILL"] } := by
  rfl

/-- C2 (amended): when the spawn-level timeout fires before natural
completion (and neither output limit is hit), the child is force-killed
with the uncatchable `SIGKILL` configured as the spawn `killSignal`, and
the promise resolves with an `Execution` whose `exitCode` is `null` and
whose `signal` is `"SIGKILL"` — but whose `reason` remains `"success"`;
the code sets no distinct "timed out" reason. -/
theorem execute_timeout_kills (opts : ExecOptions) (trace : List ExecEvent)
    (ht : ExecEvent.timeoutFired ∈ delivered trace)
    (hs : settlingEvent trace = some (.exit none (some "SIGKILL")))
    (ho : stdoutBytes (delivered trace) ≤ opts.standardOutputLimit)
    (he : stderrBytes (delivered trace) ≤ opts.standardErrorLimit) :
    ∃ result final, execute opts trace = .resolved result final ∧
      "SIGKILL" ∈ final.kills ∧
      result.exitCode = none ∧
      result.signal = some "SIGKILL" ∧
      result.reason = "success" := by
  rw [execute, runExecAux_resolves _ _ _ _ _ _ hs]
  refine ⟨_, _, rfl, procEvents_timeout_kill _ _ _ _ ht, rfl, rfl, ?_⟩
  rw [mkExecution]
  exact procEvents_no_overflow _ _ _ _
    (by simpa [ExecState.initial] using ho)
    (by simpa [ExecState.initial] using he)

/-- Witness for `execute_timeout_kills`: a 100 ms timeout elapsing with no
output at all. -/
theorem execute_timeout_kills_witness :
    ∃ result final,
      execute { timeout := some 100 } [.timeoutFired, .exit none (some "SIGKILL")] =
        .resolved result final ∧
      "SIGKILL" ∈ final.kills ∧
      result.exitCode = none ∧
      result.signal = some "SIGKILL" ∧
      result.reason = "success" :=
  execute_timeout_kills { timeout := some 100 }
    [.timeoutFired, .exit none (some "SIGKILL")]
    (by decide) (by decide) (by decide) (by decide)

/-- C7: `execute` rejects exactly when the spawned process emits a
spawn-level `error` event (executable missing, unable to spawn) before
exiting; every trace that ends in an `exit` — the path taken for non-zero
exit codes, timeouts and output overflows alike — resolves with a
structured `Execution` instead. -/
theorem execute_rejects_iff_spawn_error (opts : ExecOptions)
    (trace : List ExecEvent) :
    ((∃ final, execute opts trace = .rejected final) ↔ settlesWithError trace) ∧
    (settlesWithExit trace →
      ∃ result final, execute opts trace = .resolved result final) := by
  constructor
  · rw [settlesWithError_iff]
    constructor
    · rintro ⟨final, hfin⟩
      rcases settlingEvent_cases trace with h | ⟨c, g, h⟩ | h
      · rw [execute, runExecAux_pending _ _ _ _ h] at hfin
        exact absurd hfin (by simp)
      · rw [execute, runExecAux_resolves _ _ _ _ _ _ h] at hfin
        exact absurd hfin (by simp)
      · exact h
    · intro h
      rw [execute, runExecAux_rejects _ _ _ _ h]
      exact ⟨_, rfl⟩
  · rw [settlesWithExit_iff]
    rintro ⟨c, g, h⟩
    rw [execute, runExecAux_resolves _ _ _ _ _ _ h]
    exact ⟨_, _, rfl⟩

/-- Witness for `execute_rejects_iff_spawn_error`: a spawn failure rejects,
and a non-zero exit resolves. -/
theorem execute_rejects_iff_spawn_error_witness :
    (∃ final, execute {} [.errorEvent] = .rejected final) ∧
    (∃ result final,
      execute {} [.exit (some 1) none] = .resolved result final) :=
  ⟨(execute_rejects_iff_spawn_error {} [.errorEvent]).1.mpr (by decide),
    (execute_rejects_iff_spawn_error {} [.exit (some 1) none]).2 (by decide)⟩

/-! ## Helper lemmas for the Runnable attempt machinery -/

theorem done_timedOut (s : RunAttempt) (err : Option RunErr) (t : Nat)
    (h : s.timedOut = true) : s.done err t = s := by
  simp [RunAttempt.done, h]

theorem done_finished (s : RunAttempt) (err : Option RunErr) (t : Nat)
    (h1 : s.timedOut = false) (h2 : s.finished = true) :
    s.done err t = s.multiple err := by
  simp [RunAttempt.done, h1, h2]

theorem done_fresh (s : RunAttempt) (err : Option RunErr) (t : Nat)
    (h1 : s.timedOut = false) (h2 : s.finished = false) :
    s.done err t =
      { s with
          timerArmed := false
          duration := some t
          finished := true
          fnCalls := s.fnCalls ++
            [if err = none ∧ s.timeoutMs < t ∧ 0 < s.timeoutMs then
              some (Runnable.mkTimeoutError s.timeoutMs)
            else err] } := by
  simp [RunAttempt.done, RunAttempt.clearPendingTimer, h1, h2]

theorem timerFire_unarmed (s : RunAttempt) (h : s.timerArmed = false) :
    s.timerFire = s := by
  simp [RunAttempt.timerFire, h]

/-- After a finalized attempt with its error already handled (and its
timer cleared, as `done` guarantees), every further event is a no-op. -/
theorem runSteps_frozen (s : RunAttempt) (events : List RunEvent)
    (harm : s.timerArmed = false)
    (h : s.timedOut = true ∨ (s.finished = true ∧ s.errorWasHandled = true)) :
    runSteps s events = s := by
  induction events with
  | nil => rfl
  | cons e rest ih =>
    have hstep : runStep s e = s := by
      cases e with
      | doneCall err t =>
        cases hto : s.timedOut with
        | true => exact done_timedOut _ _ _ hto
        | false =>
          rcases h with h | ⟨h1, h2⟩
          · rw [hto] at h; exact absurd h (by simp)
          · rw [runStep, done_finished _ _ _ hto h1]
            simp [RunAttempt.multiple, h2]
      | timerFire => exact timerFire_unarmed _ harm
    simpa [runSteps, hstep] using ih

/-- With the timer unarmed, timer events never change the state. -/
theorem runSteps_timerFire_unarmed (s : RunAttempt) (events : List RunEvent)
    (h : s.timerArmed = false) (hall : ∀ e ∈ events, e = RunEvent.timerFire) :
    runSteps s events = s := by
  induction events with
  | nil => rfl
  | cons e rest ih =>
    have he : e = RunEvent.timerFire := hall e (by simp)
    subst he
    have hstep : runStep s RunEvent.timerFire = s := timerFire_unarmed _ h
    simpa [runSteps, hstep] using ih (fun e hm => hall e (by simp [hm]))

theorem initial_resetTimeout_fields (T : Nat) :
    ((RunAttempt.initial T).resetTimeout).timedOut = false ∧
    ((RunAttempt.initial T).resetTimeout).finished = false ∧
    ((RunAttempt.initial T).resetTimeout).errorWasHandled = false ∧
    ((RunAttempt.initial T).resetTimeout).duration = none ∧
    ((RunAttempt.initial T).resetTimeout).fnCalls = [] ∧
    ((RunAttempt.initial T).resetTimeout).errorEvents = [] ∧
    ((RunAttempt.initial T).resetTimeout).timeoutMs = T := by
  by_cases h : T = 0 <;> simp [RunAttempt.resetTimeout, RunAttempt.initial, h]

theorem resetTimeout_armed (T : Nat) (h : T ≠ 0) :
    (RunAttempt.initial T).resetTimeout =
      { RunAttempt.initial T with timerArmed := true } := by
  simp [RunAttempt.resetTimeout, RunAttempt.initial, h]

/-- With a positive timeout, the armed deadline timer fires `T` ms after
arming and finalizes the attempt: continuation called once with the
timeout error, `timedOut` set. -/
theorem timerFire_on_armed_initial (T : Nat) (h : 0 < T) :
    (RunAttempt.initial T).resetTimeout.timerFire =
      { timeoutMs := T, timedOut := true, finished := true
        errorWasHandled := false, timerArmed := false, duration := some T
        fnCalls := [some (Runnable.mkTimeoutError T)], errorEvents := [] } := by
  have hne : T ≠ 0 := by omega
  rw [resetTimeout_armed T hne]
  simp [RunAttempt.timerFire, RunAttempt.initial, RunAttempt.done,
    RunAttempt.clearPendingTimer, hne]

/-- C3: at most one completion is accepted per attempt.  Arming the
deadline and receiving a first completion (`done err₀` at elapsed `t₀`)
finalizes the attempt: `finished` set, duration recorded, timer cleared,
continuation invoked exactly once.  A second completion signal emits
exactly one non-fatal `MultipleDoneError` "error" event and changes
neither the continuation calls nor the recorded duration; all further
events (more completions or timer fires) are no-ops. -/
theorem runnable_single_completion (T t₀ t₁ : Nat) (err₀ err₁ : Option RunErr)
    (rest : List RunEvent) :
    ((RunAttempt.initial T).resetTimeout.done err₀ t₀).finished = true ∧
    ((RunAttempt.initial T).resetTimeout.done err₀ t₀).duration = some t₀ ∧
    ((RunAttempt.initial T).resetTimeout.done err₀ t₀).timerArmed = false ∧
    ((RunAttempt.initial T).resetTimeout.done err₀ t₀).fnCalls.length = 1 ∧
    (((RunAttempt.initial T).resetTimeout.done err₀ t₀).done err₁ t₁).errorEvents
        = [createMultipleDoneError err₁] ∧
    (((RunAttempt.initial T).resetTimeout.done err₀ t₀).done err₁ t₁).fnCalls
        = ((RunAttempt.initial T).resetTimeout.done err₀ t₀).fnCalls ∧
    (((RunAttempt.initial T).resetTimeout.done err₀ t₀).done err₁ t₁).duration
        = some t₀ ∧
    runSteps (((RunAttempt.initial T).resetTimeout.done err₀ t₀).done err₁ t₁) rest
        = ((RunAttempt.initial T).resetTimeout.done err₀ t₀).done err₁ t₁ := by
  obtain ⟨hto, hfin, hewh, hdur, hfc, hee, htms⟩ := initial_resetTimeout_fields T
  have hdone := done_fresh ((RunAttempt.initial T).resetTimeout) err₀ t₀ hto hfin
  have h1 : ((RunAttempt.initial T).resetTimeout.done err₀ t₀).timedOut = false := by
    rw [hdone]; exact hto
  have h2 : ((RunAttempt.initial T).resetTimeout.done err₀ t₀).finished = true := by
    rw [hdone]
  have h3 : ((RunAttempt.initial T).resetTimeout.done err₀ t₀).errorWasHandled
      = false := by
    rw [hdone]; exact hewh
  have hmul := done_finished ((RunAttempt.initial T).resetTimeout.done err₀ t₀)
    err₁ t₁ h1 h2
  rw [hmul]
  refine ⟨h2, ?_, ?_, ?_, ?_, ?_, ?_, ?_⟩
  · rw [hdone]
  · rw [hdone]
  · rw [hdone]; simp [hfc]
  · simp [RunAttempt.multiple, h3, hdone, hee, hewh]
  · simp [RunAttempt.multiple, h3, hdone, hewh]
  · simp [RunAttempt.multiple, h3, hdone, hewh]
  · apply runSteps_frozen
    · simp [RunAttempt.multiple, h3, hdone, hewh]
    · exact Or.inr ⟨by simp [RunAttempt.multiple, h3, h2, hdone, hewh],
        by simp [RunAttempt.multiple, h3, hdone, hewh]⟩

/-- C4: a Runnable whose body never completes and whose effective timeout
is `T > 0` is finalized by the deadline timer, which fires `T` ms after
arming: the continuation receives a `TimeoutError` carrying the limit `T`
(the attempt thus finalizes as failed) and `timedOut` is set.  A timeout
of 0 never arms the deadline, so the attempt never times out no matter
how often a (spurious) timer event occurs. -/
theorem runnable_timeout_law (T : Nat) :
    (0 < T →
      (RunAttempt.initial T).resetTimeout.timerFire.fnCalls
          = [some (Runnable.mkTimeoutError T)] ∧
      (RunAttempt.initial T).resetTimeout.timerFire.timedOut = true ∧
      (RunAttempt.initial T).resetTimeout.timerFire.finished = true ∧
      (RunAttempt.initial T).resetTimeout.timerFire.duration = some T) ∧
    (T = 0 → ∀ events : List RunEvent,
      (∀ e ∈ events, e = RunEvent.timerFire) →
      (runSteps (RunAttempt.initial T).resetTimeout events).fnCalls = [] ∧
      (runSteps (RunAttempt.initial T).resetTimeout events).timedOut = false) := by
  constructor
  · intro h
    rw [timerFire_on_armed_initial T h]
    simp
  · intro h events hall
    rw [runSteps_timerFire_unarmed _ _
      (by simp [h, RunAttempt.resetTimeout, RunAttempt.initial]) hall]
    simp [h, RunAttempt.resetTimeout, RunAttempt.initial]

/-- Witness for `runnable_timeout_law`: a 50 ms deadline fires with a
`TimeoutError` of limit 50; a 0 timeout never times out. -/
theorem runnable_timeout_law_witness :
    (RunAttempt.initial 50).resetTimeout.timerFire.fnCalls
        = [some (Runnable.mkTimeoutError 50)] ∧
    (runSteps (RunAttempt.initial 0).resetTimeout [RunEvent.timerFire]).timedOut
        = false :=
  ⟨((runnable_timeout_law 50).1 (by decide)).1,
    ((runnable_timeout_law 0).2 rfl [RunEvent.timerFire] (by decide)).2⟩

/-- C10: once the deadline has finalized an attempt (`timedOut = true`),
any later completion signal from the body — success or error, and any
number of them — is silently discarded: the state is unchanged, the
failed result (one continuation call with the timeout error) stands, and
no `MultipleDoneError` event is ever emitted. -/
theorem runnable_after_timeout_discards (T : Nat) (hT : 0 < T)
    (events : List RunEvent) :
    runSteps (RunAttempt.initial T).resetTimeout.timerFire events
        = (RunAttempt.initial T).resetTimeout.timerFire ∧
    (runSteps (RunAttempt.initial T).resetTimeout.timerFire events).errorEvents
        = [] ∧
    (runSteps (RunAttempt.initial T).resetTimeout.timerFire events).fnCalls
        = [some (Runnable.mkTimeoutError T)] := by
  have heq : runSteps (RunAttempt.initial T).resetTimeout.timerFire events
      = (RunAttempt.initial T).resetTimeout.timerFire := by
    apply runSteps_frozen
    · rw [timerFire_on_armed_initial T hT]
    · exact Or.inl (by rw [timerFire_on_armed_initial T hT])
  refine ⟨heq, ?_, ?_⟩ <;> rw [heq, timerFire_on_armed_initial T hT]

/-- Witness for `runnable_after_timeout_discards`: after a 50 ms timeout,
a late successful completion at 60 ms and a late error at 70 ms are both
discarded without a `MultipleDoneError`. -/
theorem runnable_after_timeout_discards_witness :
    runSteps (RunAttempt.initial 50).resetTimeout.timerFire
        [RunEvent.doneCall none 60, RunEvent.doneCall (some (RunErr.bodyError 7)) 70]
        = (RunAttempt.initial 50).resetTimeout.timerFire ∧
    (runSteps (RunAttempt.initial 50).resetTimeout.timerFire
        [RunEvent.doneCall none 60, RunEvent.doneCall (some (RunErr.bodyError 7)) 70]).errorEvents
        = [] ∧
    (runSteps (RunAttempt.initial 50).resetTimeout.timerFire
        [RunEvent.doneCall none 60, RunEvent.doneCall (some (RunErr.bodyError 7)) 70]).fnCalls
        = [some (Runnable.mkTimeoutError 50)] :=
  runnable_after_timeout_discards 50 (by decide)
    [RunEvent.doneCall none 60, RunEvent.doneCall (some (RunErr.bodyError 7)) 70]

/-- C9: `Runnable.timeout(ms)` stores the value clamped to
`[0, 2^31 - 1]`; whenever the clamped value equals either endpoint the
stored timeout becomes 0 (timeouts disabled) — in particular any request
of `2^31 - 1` ms or more, or of 0 or less, disables the deadline — and
strictly interior values are stored as they are. -/
theorem runnable_timeout_clamp (ms : Int) :
    (0 ≤ Runnable.timeoutSet ms ∧ Runnable.timeoutSet ms ≤ (INT_MAX : Int)) ∧
    ((clamp ms 0 (INT_MAX : Int) = 0 ∨ clamp ms 0 (INT_MAX : Int) = (INT_MAX : Int)) →
      Runnable.timeoutSet ms = 0) ∧
    ((INT_MAX : Int) ≤ ms → Runnable.timeoutSet ms = 0) ∧
    (ms ≤ 0 → Runnable.timeoutSet ms = 0) ∧
    (0 < ms → ms < (INT_MAX : Int) → Runnable.timeoutSet ms = ms) := by
  simp only [Runnable.timeoutSet, clamp, INT_MAX]
  norm_num
  refine ⟨⟨?_, ?_⟩, ?_, ?_, ?_, ?_⟩ <;> (try split) <;> omega

/-- Witness for `runnable_timeout_clamp`: requesting `2^31 - 1` ms stores
0 (deadline disabled); requesting 500 ms stores 500. -/
theorem runnable_timeout_clamp_witness :
    Runnable.timeoutSet 2147483647 = 0 ∧ Runnable.timeoutSet 500 = 500 :=
  ⟨(runnable_timeout_clamp 2147483647).2.2.1 (by norm_num [INT_MAX]),
    (runnable_timeout_clamp 500).2.2.2.2 (by norm_num)
      (by norm_num [INT_MAX])⟩

/-! ## Mocha lifecycle and declaration-guard theorems -/

theorem mochaStep_disposed (op : MochaOp) :
    mochaStep MochaState.disposed op = MochaState.disposed := by
  cases op <;>
    simp [mochaStep, mochaRunStart, guardRunningStateTransition, mochaDispose,
      mochaUnloadFiles]

/-- C5: the Mocha instance lifecycle.  `run()` on a `running` instance
throws the already-running error; on a `disposed` or `referencesCleaned`
instance it throws the already-disposed error; from `init` a run starts,
and its completion moves the state to `referencesCleaned` (when references
are cleaned) or back to `init`.  No sequence of operations ever takes a
`disposed` instance out of `disposed`, so it can never run again. -/
theorem mocha_lifecycle (clean : Bool) :
    mochaRunStart MochaState.running = .error .alreadyRunning ∧
    MochaLifecycleError.alreadyRunning.code = "ERR_MOCHA_INSTANCE_ALREADY_RUNNING" ∧
    mochaRunStart MochaState.disposed = .error .alreadyDisposed ∧
    mochaRunStart MochaState.referencesCleaned = .error .alreadyDisposed ∧
    MochaLifecycleError.alreadyDisposed.code = "ERR_MOCHA_INSTANCE_ALREADY_DISPOSED" ∧
    mochaRunStart MochaState.init = .ok MochaState.running ∧
    (mochaRunDone clean = MochaState.referencesCleaned ∨
      mochaRunDone clean = MochaState.init) ∧
    (∀ ops : List MochaOp, ops.foldl mochaStep MochaState.disposed
      = MochaState.disposed) := by
  refine ⟨rfl, rfl, rfl, rfl, rfl, rfl, ?_, ?_⟩
  · cases clean <;> simp [mochaRunDone]
  · intro ops
    induction ops with
    | nil => rfl
    | cons op rest ih => simpa [List.foldl, mochaStep_disposed] using ih

/-- Loading any declaration list that marks something exclusive under
`forbidOnly` stops at the first exclusive mark with the forbidden
exclusivity error: both `only` entry points throw before marking. -/
theorem loadDecls_forbidOnly (isWorker : Bool) (s : LoadState)
    (decls : List Decl) (h : declaresOnly decls) :
    loadDecls true isWorker s decls =
      .error (createForbiddenExclusivityError isWorker) := by
  induction decls generalizing s with
  | nil => simp [declaresOnly] at h
  | cons d rest ih =>
    cases d with
    | testDecl i =>
      have h' : declaresOnly rest := by
        simpa [declaresOnly, Decl.isOnlyMark] using h
      simpa [loadDecls, loadDecl] using ih _ h'
    | suiteDecl i =>
      have h' : declaresOnly rest := by
        simpa [declaresOnly, Decl.isOnlyMark] using h
      simpa [loadDecls, loadDecl] using ih _ h'
    | testOnly i => simp [loadDecls, loadDecl]
    | suiteOnly i => simp [loadDecls, loadDecl]

/-- C6: with `forbidOnly` configured, a declaration tree that marks any
test or suite `only` makes the run fail during loading — before any test
executes — with the `ForbiddenExclusivityError` whose `code` is
`FORBIDDEN_EXCLUSIVITY` (`"ERR_MOCHA_FORBIDDEN_EXCLUSIVITY"`); no list of
executed tests is ever produced. -/
theorem forbid_only_fails_fast (isWorker : Bool) (decls : List Decl)
    (h : declaresOnly decls) :
    mochaRunWithDecls true isWorker decls =
      .error (createForbiddenExclusivityError isWorker) ∧
    (createForbiddenExclusivityError isWorker).code
      = "ERR_MOCHA_FORBIDDEN_EXCLUSIVITY" := by
  refine ⟨?_, rfl⟩
  rw [mochaRunWithDecls, loadDecls_forbidOnly _ _ _ h]

/-- Witness for `forbid_only_fails_fast`: one exclusive test declared
after a plain test under `forbidOnly`. -/
theorem forbid_only_fails_fast_witness :
    mochaRunWithDecls true false [Decl.testDecl 0, Decl.testOnly 1] =
      .error (createForbiddenExclusivityError false) ∧
    (createForbiddenExclusivityError false).code
      = "ERR_MOCHA_FORBIDDEN_EXCLUSIVITY" :=
  forbid_only_fails_fast false [Decl.testDecl 0, Decl.testOnly 1] rfl

/-- C8: a `Test` constructed without a callback is pending after
construction, and `Test.reset` always recomputes `pending = !fn`: true
exactly when no callback was supplied, false when one was. -/
theorem test_pending_iff_no_fn (title : String) (t : Test) :
    (Test.create title false).pending = true ∧
    (Test.create title true).pending = false ∧
    (Test.reset t).pending = !t.hasFn := by
  refine ⟨rfl, rfl, ?_⟩
  simp [Test.reset, Runnable.reset]

end Rover
